import Mathlib

/-!
Shallow embedding of the referral-reward bot (`src/main.py`): the ledger
state (SQLAlchemy `users` and `withdrawal_requests` tables) and the
handlers that mutate it (`get_or_create_user`, `start`,
`set_wallet_address`, `withdraw_amount_handler`, `update_withdrawal`,
`get_api_key`), followed by theorems settling the frozen claims.

Modelling conventions:
* `Numeric(18, 8)` / Python `Decimal` values are embedded as `Rat`
  (exact arithmetic; add, subtract and compare agree with `Decimal`).
* The `users` table is a list of rows in insertion order; the
  autoincrement primary key `id` is drawn from a `next_user_id` counter,
  mirroring `id = Column(BigInteger, primary_key=True, autoincrement=True)`.
  Note `telegram_id` is a separate, unique-indexed column; SQLAlchemy
  `session.get(User, k)` fetches by the primary key `id`, NOT by
  `telegram_id`, and is embedded accordingly (`findUserByPk`).
* `generate_referral_code` (uuid-based) and `func.now()` timestamps are
  nondeterministic; handlers take the generated code / current time as
  explicit oracle arguments.
* An SQL `UPDATE ... WHERE pk = x` touches every row whose key matches;
  primary-key uniqueness (part of `WF` below) makes it a single row.
* `main.py` calls `select(...)` (lines 125, 144, 294, 300) but its
  sqlalchemy import list (lines 15-20) never brings `select` into
  scope, so every handler that reaches such a call raises
  `NameError: name 'select' is not defined` and commits nothing. Two
  layers are modelled: `get_or_create_user_runtime` / `start_runtime`
  capture this actual runtime behavior (the handler aborts), while
  `get_or_create_user` / `start` model the written lookup logic with
  that error path collapsed to the successful path — a strict superset
  of the runtime behavior, used for the safety invariant, which only
  becomes harder to prove when the dead paths are allowed to run.
-/

namespace Airdrop

/-- Row of the `users` table (class `User` in `src/main.py`). -/
structure User where
  id : Nat
  telegram_id : Int
  username : Option String
  first_name : Option String
  wallet_address : Option String
  balance : Rat
  referral_code : String
  referred_by : Option Int
  total_invites : Int
  created_at : Int
deriving DecidableEq

/-- Row of the `withdrawal_requests` table (class `WithdrawalRequest`). -/
structure WithdrawalRequest where
  id : Nat
  user_id : Int
  amount : Rat
  wallet_address : String
  status : String
  created_at : Int
deriving DecidableEq

/-- The persistent store: both tables plus the autoincrement counters. -/
structure DB where
  users : List User
  next_user_id : Nat
  withdrawals : List WithdrawalRequest
  next_wd_id : Nat
deriving DecidableEq

/-- Telegram profile data carried by `update.effective_user`. -/
structure UserData where
  id : Int
  username : Option String
  first_name : Option String
deriving DecidableEq

/-- `REFERRAL_BONUS = Decimal("10.0")`. -/
def REFERRAL_BONUS : Rat := 10

/-- `MIN_WITHDRAWAL = Decimal("100.0")`. -/
def MIN_WITHDRAWAL : Rat := 100

/-- `select(User).filter_by(telegram_id=tg)` followed by `.first()`. -/
def findUserByTg (db : DB) (tg : Int) : Option User :=
  db.users.find? (fun u => u.telegram_id == tg)

/-- `session.get(User, pk)`: lookup by the primary key column `id`. -/
def findUserByPk (db : DB) (pk : Int) : Option User :=
  db.users.find? (fun u => (u.id : Int) == pk)

/-- `select(User).filter_by(referral_code=code)` followed by `.first()`. -/
def findUserByCode (db : DB) (code : String) : Option User :=
  db.users.find? (fun u => u.referral_code == code)

/-- Mutate the row(s) whose primary key `id` equals `pk`
(`UPDATE users SET ... WHERE id = pk`). -/
def updateByPk (users : List User) (pk : Nat) (f : User → User) : List User :=
  users.map (fun u => if u.id == pk then f u else u)

/-- `get_or_create_user(session, telegram_id, user_data)` as written:
select by `telegram_id`; when absent, insert a fresh row with the
column defaults (`balance` 0, generated `referral_code`, `referred_by`
NULL, `total_invites` 0, NULL wallet). Caution: because `select` is
never imported, the real function raises `NameError` on its first
statement and this logic is dead at runtime — see
`get_or_create_user_runtime`; this definition collapses that error
path to the successful path, enlarging the behavior. -/
def get_or_create_user (db : DB) (telegram_id : Int) (user_data : UserData)
    (freshCode : String) (now : Int) : User × DB :=
  match findUserByTg db telegram_id with
  | some u => (u, db)
  | none =>
    let u : User :=
      { id := db.next_user_id
        telegram_id := telegram_id
        username := user_data.username
        first_name := user_data.first_name
        wallet_address := none
        balance := 0
        referral_code := freshCode
        referred_by := none
        total_invites := 0
        created_at := now }
    (u, { db with users := db.users ++ [u], next_user_id := db.next_user_id + 1 })

/-- Python truthiness of `user.referred_by` as used in
`if not user.referred_by:`: `None` and `0` are both falsy. -/
def pyFalsyRef (r : Option Int) : Bool :=
  match r with
  | none => true
  | some v => v == 0

/-- Referral block of the `/start` handler as written, acting on the
session state `db1` after `get_or_create_user` returned `user`: when
`not user.referred_by` (Python truthiness), look up the referrer by
code; if one exists and is not the user themselves, set `referred_by`,
increment the referrer's `total_invites` and credit `REFERRAL_BONUS` to
the referrer's balance, all in one commit. Caution: this block is dead
at runtime — the lookup at src/main.py:144 uses the never-imported
name `select` (and the preceding `get_or_create_user` call raises the
same `NameError` first); this definition collapses those error paths
to the successful path — see `start_runtime` for the actual
behavior. -/
def applyReferral (db1 : DB) (user : User) (referrer_code : String) : DB :=
  if pyFalsyRef user.referred_by then
    match findUserByCode db1 referrer_code with
    | some referrer =>
      if referrer.telegram_id != user.telegram_id then
        { db1 with
            users :=
              updateByPk
                (updateByPk db1.users user.id
                  (fun v => { v with referred_by := some referrer.telegram_id }))
                referrer.id
                (fun v =>
                  { v with
                      total_invites := v.total_invites + 1
                      balance := v.balance + REFERRAL_BONUS }) }
      else db1
    | none => db1
  else db1

/-- The `/start` handler as written: ensure the account exists, then,
when a `/start` argument is present, run the referral block on its
first argument (error paths collapsed as in `get_or_create_user` and
`applyReferral`; the runtime behavior is `start_runtime`). -/
def start (db : DB) (tg : Int) (user_data : UserData) (args : List String)
    (freshCode : String) (now : Int) : DB :=
  match args with
  | [] => (get_or_create_user db tg user_data freshCode now).2
  | referrer_code :: _ =>
    applyReferral (get_or_create_user db tg user_data freshCode now).2
      (get_or_create_user db tg user_data freshCode now).1 referrer_code

/-- Result of running a handler body that may raise an uncaught Python
exception: `raised n` is an exception escaping the handler with the
session context manager exited and nothing committed. -/
inductive PyOutcome (α : Type) where
  | raised (n : String)
  | ok (val : α)
deriving DecidableEq

/-- Actual runtime behavior of `get_or_create_user`
(src/main.py:124-135): its first statement
`await session.execute(select(User).filter_by(...))` evaluates the bare
name `select`, which `main.py` never brings into scope (the sqlalchemy
imports at lines 15-20 omit it), so every call raises
`NameError: name 'select' is not defined` before any row is read or
inserted: no account is ever returned and the store is unchanged. -/
def get_or_create_user_runtime (db : DB) (telegram_id : Int)
    (user_data : UserData) : PyOutcome (User × DB) :=
  PyOutcome.raised "select"

/-- Actual runtime behavior of the `/start` handler: the
`get_or_create_user` call raises `NameError` (propagated, nothing
committed); had it returned, the referral lookup at src/main.py:144
evaluates the same never-imported name `select` and would raise the
same error before any attribution or crediting. -/
def start_runtime (db : DB) (tg : Int) (user_data : UserData)
    (args : List String) : PyOutcome DB :=
  match get_or_create_user_runtime db tg user_data with
  | PyOutcome.raised n => PyOutcome.raised n
  | PyOutcome.ok (user, db1) =>
    match args with
    | [] => PyOutcome.ok db1
    | _ :: _ =>
      if pyFalsyRef user.referred_by then PyOutcome.raised "select"
      else PyOutcome.ok db1

/-- Is `c` matched by the regex character class `[a-fA-F0-9]`? -/
def isHexChar (c : Char) : Bool :=
  (('0' ≤ c) && (c ≤ '9')) || (('a' ≤ c) && (c ≤ 'f')) || (('A' ≤ c) && (c ≤ 'F'))

/-- Does the char list match the bare pattern `0x[a-fA-F0-9]{40}` in full? -/
def coreWalletMatch (cs : List Char) : Bool :=
  match cs with
  | c1 :: c2 :: rest =>
    (c1 == '0') && (c2 == 'x') && (rest.length == 40) && rest.all isHexChar
  | _ => false

/-- Python truth value of
`re.match(r"^0x[a-fA-F0-9]{40}$", s)`. `re.match` anchors at the start;
without `re.MULTILINE`, `$` matches at the end of the string or just
before a single newline at the end of the string, so a trailing `'\n'`
is also accepted. -/
def wallet_regex_ok (s : String) : Bool :=
  coreWalletMatch s.data ||
    ((s.data.getLast? == some '\n') && coreWalletMatch s.data.dropLast)

/-- Outcome of the `set_wallet_address` handler. -/
inductive SetWalletResult where
  | invalid
  | crashed
  | ok
deriving DecidableEq

/-- `set_wallet_address` handler: reject strings failing the regex with
no state change; otherwise `session.get(User, update.effective_user.id)`
— a lookup by primary key `id`, not `telegram_id` — and set that row's
`wallet_address`. When the primary-key lookup misses, `user` is `None`
and `user.wallet_address = address` raises (no commit): `crashed`. -/
def set_wallet_address (db : DB) (tg : Int) (address : String) :
    SetWalletResult × DB :=
  if !wallet_regex_ok address then (.invalid, db)
  else
    match findUserByPk db tg with
    | none => (.crashed, db)
    | some u =>
      let users2 :=
        updateByPk db.users u.id (fun v => { v with wallet_address := some address })
      (.ok, { db with users := users2 })

/-- Outcome of the `withdraw_amount_handler` handler. -/
inductive WithdrawResult where
  | belowMin
  | crashed
  | insufficient
  | ok
deriving DecidableEq

/-- `withdraw_amount_handler` (the amount is the already-parsed
`Decimal`; a parse failure replies and leaves the store untouched).
The handler fetches `session.get(User, update.effective_user.id,
with_for_update=True)` — again by primary key `id` — then checks
`amount < MIN_WITHDRAWAL` (before touching the fetched row, so a missed
lookup still answers `belowMin`), then `amount > user.balance`
(an `AttributeError` on a missed lookup: `crashed`, nothing committed),
then debits the fetched row and inserts a PENDING request carrying that
row's `telegram_id` and wallet snapshot. A NULL wallet on the fetched
row violates the `nullable=False` column at commit: `crashed`. -/
def withdraw_amount_handler (db : DB) (tg : Int) (amount : Rat) (now : Int) :
    WithdrawResult × DB :=
  if amount < MIN_WITHDRAWAL then (.belowMin, db)
  else
    match findUserByPk db tg with
    | none => (.crashed, db)
    | some u =>
      if u.balance < amount then (.insufficient, db)
      else
        match u.wallet_address with
        | none => (.crashed, db)
        | some w =>
          (.ok, { db with
            users := updateByPk db.users u.id
              (fun v => { v with balance := v.balance - amount })
            withdrawals := db.withdrawals ++
              [{ id := db.next_wd_id
                 user_id := u.telegram_id
                 amount := amount
                 wallet_address := w
                 status := "PENDING"
                 created_at := now }]
            next_wd_id := db.next_wd_id + 1 })

/-- Outcome of the admin `PUT /admin/withdrawals/{req_id}/status` route. -/
inductive AdminResult where
  | badRequest
  | notFound
  | success
deriving DecidableEq

/-- `update_withdrawal(req_id, new_status)`: 400 unless the new status
is `PAID` or `REJECTED`; 404 when no request row has primary key
`req_id`; otherwise overwrite `status` and commit — the current status
is never consulted. -/
def update_withdrawal (db : DB) (req_id : Int) (new_status : String) :
    AdminResult × DB :=
  if !((new_status == "PAID") || (new_status == "REJECTED")) then (.badRequest, db)
  else
    match db.withdrawals.find? (fun w => (w.id : Int) == req_id) with
    | none => (.notFound, db)
    | some _ =>
      let ws2 :=
        db.withdrawals.map (fun w =>
          if (w.id : Int) == req_id then { w with status := new_status } else w)
      (.success, { db with withdrawals := ws2 })

/-- `get_api_key`: the `X-API-KEY` header (or `None` when absent, since
`auto_error=False`) is compared to `ADMIN_API_KEY` (or `None` when the
environment variable is unset); equality grants access, anything else
raises HTTP 403. -/
def get_api_key (admin_api_key : Option String) (api_key_header : Option String) :
    Except Nat (Option String) :=
  if api_key_header == admin_api_key then .ok api_key_header
  else .error 403

/-- Did `get_api_key` grant access (no exception raised)? -/
def granted (r : Except Nat (Option String)) : Bool :=
  match r with
  | .ok _ => true
  | .error _ => false

/-- Database well-formedness enforced by the schema: the autoincrement
counter exceeds every primary key, primary keys are unique, and
`telegram_id` is unique (`unique=True` on the column). -/
def WF (db : DB) : Prop :=
  (∀ u ∈ db.users, u.id < db.next_user_id) ∧
  (db.users.map User.id).Nodup ∧
  (db.users.map User.telegram_id).Nodup

instance (db : DB) : Decidable (WF db) := by
  unfold WF; infer_instance

/-- One inbound event hitting the store, covering account creation
(every chat handler calls `get_or_create_user`), referral attribution
(`start`), wallet updates, withdrawal requests and admin status
updates. -/
inductive Op where
  | opEnsure (tg : Int) (ud : UserData) (code : String) (now : Int)
  | opStart (tg : Int) (ud : UserData) (args : List String) (code : String) (now : Int)
  | opSetWallet (tg : Int) (address : String)
  | opWithdraw (tg : Int) (amount : Rat) (now : Int)
  | opAdmin (req_id : Int) (new_status : String)

/-- State transition of a single operation (result discarded). -/
def step (db : DB) : Op → DB
  | .opEnsure tg ud code now => (get_or_create_user db tg ud code now).2
  | .opStart tg ud args code now => start db tg ud args code now
  | .opSetWallet tg address => (set_wallet_address db tg address).2
  | .opWithdraw tg amount now => (withdraw_amount_handler db tg amount now).2
  | .opAdmin req_id new_status => (update_withdrawal db req_id new_status).2

/-- Run a sequence of operations. -/
def run (db : DB) (ops : List Op) : DB :=
  ops.foldl step db

/-- A withdrawal attempt: requesting identity, parsed amount, time. -/
structure WReq where
  tg : Int
  amount : Rat
  now : Int

/-- Run a sequence of withdrawal attempts only. -/
def runW (db : DB) (reqs : List WReq) : DB :=
  reqs.foldl (fun d r => (withdraw_amount_handler d r.tg r.amount r.now).2) db

/-- Total amount of the listed requests that belong to `tg`. -/
def sumAmountsFor : List WithdrawalRequest → Int → Rat
  | [], _ => 0
  | w :: ws, tg => (if w.user_id = tg then w.amount else 0) + sumAmountsFor ws tg

/-- Every balance in the store is non-negative. -/
def balancesNonneg (db : DB) : Prop :=
  ∀ u ∈ db.users, 0 ≤ u.balance

instance (db : DB) : Decidable (balancesNonneg db) := by
  unfold balancesNonneg; infer_instance

/-- Written from the spec's words, for comparison with the code's
regex: a valid wallet is `0x` followed by exactly 40 hex characters. -/
def specWalletFormat (s : String) : Bool :=
  (s.length == 42) && (s.data.take 2 == ['0', 'x']) && (s.data.drop 2).all isHexChar

/-! ### Helper lemmas -/

theorem specWalletFormat_mk (cs : List Char) :
    specWalletFormat (String.mk cs) = coreWalletMatch cs := by
  apply Bool.eq_iff_iff.mpr
  match cs with
  | [] => simp [specWalletFormat, coreWalletMatch, String.length]
  | [c] => simp [specWalletFormat, coreWalletMatch, String.length]
  | c1 :: c2 :: rest =>
    simp only [specWalletFormat, coreWalletMatch, String.length, Bool.and_eq_true,
      beq_iff_eq, List.length_cons, List.take, List.drop, List.cons.injEq]
    constructor
    · rintro ⟨⟨h42, hcc⟩, hall⟩
      exact ⟨⟨⟨hcc.1, hcc.2.1⟩, by omega⟩, hall⟩
    · rintro ⟨⟨⟨h1, h2⟩, h40⟩, hall⟩
      exact ⟨⟨by omega, h1, h2, trivial⟩, hall⟩

theorem specWalletFormat_eq_core (s : String) :
    specWalletFormat s = coreWalletMatch s.data := by
  cases s
  exact specWalletFormat_mk _

theorem findUserByPk_some {db : DB} {pk : Int} {u : User}
    (h : findUserByPk db pk = some u) : u ∈ db.users ∧ (u.id : Int) = pk := by
  unfold findUserByPk at h
  exact ⟨List.mem_of_find?_eq_some h, by simpa using List.find?_some h⟩

theorem map_updateByPk {α : Type} (users : List User) (pk : Nat) (f : User → User)
    (g : User → α) (hf : ∀ u, g (f u) = g u) :
    (updateByPk users pk f).map g = users.map g := by
  unfold updateByPk
  rw [List.map_map]
  apply List.map_congr_left
  intro u _
  by_cases h : u.id = pk <;> simp [Function.comp, h, hf]

theorem map_updateByPk2 {α : Type} (users : List User) (p1 p2 : Nat)
    (f1 f2 : User → User) (g : User → α)
    (hf1 : ∀ u, g (f1 u) = g u) (hf2 : ∀ u, g (f2 u) = g u) :
    (updateByPk (updateByPk users p1 f1) p2 f2).map g = users.map g := by
  rw [map_updateByPk _ _ _ _ hf2, map_updateByPk _ _ _ _ hf1]

theorem mem_updateByPk {users : List User} {pk : Nat} {f : User → User} {v' : User}
    (h : v' ∈ updateByPk users pk f) :
    ∃ v ∈ users, v' = if v.id = pk then f v else v := by
  unfold updateByPk at h
  obtain ⟨v, hv, heq⟩ := List.mem_map.mp h
  refine ⟨v, hv, ?_⟩
  rw [← heq]
  by_cases hid : v.id = pk
  · rw [if_pos (beq_iff_eq.mpr hid), if_pos hid]
  · rw [if_neg (by simpa using hid), if_neg hid]

theorem WF_of_maps {db db' : DB} (h : WF db)
    (hid : db'.users.map User.id = db.users.map User.id)
    (htg : db'.users.map User.telegram_id = db.users.map User.telegram_id)
    (hnext : db'.next_user_id = db.next_user_id) : WF db' := by
  refine ⟨?_, ?_, ?_⟩
  · intro u hu
    have hmem : u.id ∈ db.users.map User.id := by
      rw [← hid]
      exact List.mem_map_of_mem _ hu
    obtain ⟨v, hv, hvid⟩ := List.mem_map.mp hmem
    rw [hnext, ← hvid]
    exact h.1 v hv
  · rw [hid]
    exact h.2.1
  · rw [htg]
    exact h.2.2

/-- The two possible outcomes of `get_or_create_user`: the row already
existed, or a fresh row with the column defaults was appended. -/
theorem get_or_create_user_cases (db : DB) (tg : Int) (ud : UserData)
    (c : String) (now : Int) :
    (∃ u, findUserByTg db tg = some u ∧ get_or_create_user db tg ud c now = (u, db)) ∨
    (findUserByTg db tg = none ∧
      get_or_create_user db tg ud c now =
        (⟨db.next_user_id, tg, ud.username, ud.first_name, none, 0, c, none, 0, now⟩,
          { db with
              users := db.users ++
                [⟨db.next_user_id, tg, ud.username, ud.first_name, none, 0, c, none, 0, now⟩]
              next_user_id := db.next_user_id + 1 })) := by
  unfold get_or_create_user
  cases h : findUserByTg db tg with
  | some u => exact Or.inl ⟨u, rfl, rfl⟩
  | none => exact Or.inr ⟨rfl, rfl⟩

theorem get_or_create_user_frame (db : DB) (tg : Int) (ud : UserData)
    (c : String) (now : Int) :
    (get_or_create_user db tg ud c now).2.withdrawals = db.withdrawals ∧
    (get_or_create_user db tg ud c now).2.next_wd_id = db.next_wd_id := by
  rcases get_or_create_user_cases db tg ud c now with ⟨u, _, heq⟩ | ⟨_, heq⟩ <;>
    rw [heq] <;> exact ⟨rfl, rfl⟩

theorem WF_get_or_create (db : DB) (tg : Int) (ud : UserData) (c : String) (now : Int)
    (hwf : WF db) : WF (get_or_create_user db tg ud c now).2 := by
  rcases get_or_create_user_cases db tg ud c now with ⟨u, _, heq⟩ | ⟨hfind, heq⟩ <;> rw [heq]
  · exact hwf
  · obtain ⟨hbound, hid, htg⟩ := hwf
    refine ⟨?_, ?_, ?_⟩
    · intro v hv
      rcases List.mem_append.mp hv with h | h
      · exact Nat.lt_succ_of_lt (hbound v h)
      · simp only [List.mem_singleton] at h
        rw [h]
        exact Nat.lt_succ_self _
    · rw [List.map_append]
      refine List.Nodup.append hid (List.nodup_singleton _) ?_
      intro x hx hx'
      simp only [List.map_cons, List.map_nil, List.mem_singleton] at hx'
      obtain ⟨v, hv, hvid⟩ := List.mem_map.mp hx
      rw [hx'] at hvid
      exact absurd hvid (Nat.ne_of_lt (hbound v hv))
    · rw [List.map_append]
      refine List.Nodup.append htg (List.nodup_singleton _) ?_
      intro x hx hx'
      simp only [List.map_cons, List.map_nil, List.mem_singleton] at hx'
      obtain ⟨v, hv, hvtg⟩ := List.mem_map.mp hx
      unfold findUserByTg at hfind
      rw [List.find?_eq_none] at hfind
      rw [hx'] at hvtg
      exact hfind v hv (by simpa using hvtg)

theorem nonneg_get_or_create (db : DB) (tg : Int) (ud : UserData) (c : String) (now : Int)
    (hnn : balancesNonneg db) : balancesNonneg (get_or_create_user db tg ud c now).2 := by
  rcases get_or_create_user_cases db tg ud c now with ⟨u, _, heq⟩ | ⟨_, heq⟩ <;> rw [heq]
  · exact hnn
  · intro v hv
    rcases List.mem_append.mp hv with h | h
    · exact hnn v h
    · simp only [List.mem_singleton] at h
      rw [h]

theorem sumAmountsFor_append (A B : List WithdrawalRequest) (tg : Int) :
    sumAmountsFor (A ++ B) tg = sumAmountsFor A tg + sumAmountsFor B tg := by
  induction A with
  | nil => simp [sumAmountsFor]
  | cons w ws ih =>
    simp only [List.cons_append, sumAmountsFor, List.append_eq]
    rw [ih]
    ring

/-- Effect of one `withdraw_amount_handler` call on the store: the
schema constraints survive, the `users` table's keys survive, some list
`A` of new requests (empty or a singleton) is appended, and each row's
balance drops by exactly the total of the new requests attributed to its
`telegram_id`; a row with non-negative balance stays non-negative
because the debit is guarded by the balance check on the same row. -/
theorem withdraw_step_spec (db : DB) (tg : Int) (a : Rat) (now : Int) (hwf : WF db) :
    WF (withdraw_amount_handler db tg a now).2 ∧
    (withdraw_amount_handler db tg a now).2.next_user_id = db.next_user_id ∧
    ∃ A : List WithdrawalRequest,
      (withdraw_amount_handler db tg a now).2.withdrawals = db.withdrawals ++ A ∧
      ∀ v' ∈ (withdraw_amount_handler db tg a now).2.users, ∃ v ∈ db.users,
        v'.id = v.id ∧ v'.telegram_id = v.telegram_id ∧
        v'.balance = v.balance - sumAmountsFor A v.telegram_id ∧
        (0 ≤ v.balance → 0 ≤ v'.balance) := by
  have unchanged : ∀ v' ∈ db.users, ∃ v ∈ db.users,
      v'.id = v.id ∧ v'.telegram_id = v.telegram_id ∧
      v'.balance = v.balance - sumAmountsFor ([] : List WithdrawalRequest) v.telegram_id ∧
      (0 ≤ v.balance → 0 ≤ v'.balance) :=
    fun v' hv' => ⟨v', hv', rfl, rfl, by simp [sumAmountsFor], fun h => h⟩
  unfold withdraw_amount_handler
  split
  · exact ⟨hwf, rfl, [], by simp, unchanged⟩
  · split
    · exact ⟨hwf, rfl, [], by simp, unchanged⟩
    · rename_i u hfind
      obtain ⟨humem, huid⟩ := findUserByPk_some hfind
      split
      · exact ⟨hwf, rfl, [], by simp, unchanged⟩
      · rename_i h2
        split
        · exact ⟨hwf, rfl, [], by simp, unchanged⟩
        · rename_i w hw
          refine ⟨?_, rfl, [⟨db.next_wd_id, u.telegram_id, a, w, "PENDING", now⟩],
            rfl, ?_⟩
          · refine WF_of_maps hwf ?_ ?_ rfl
            · exact map_updateByPk _ _ _ _ (fun v => rfl)
            · exact map_updateByPk _ _ _ _ (fun v => rfl)
          · intro v' hv'
            obtain ⟨v, hv, hveq⟩ := mem_updateByPk hv'
            refine ⟨v, hv, ?_⟩
            by_cases hvid : v.id = u.id
            · have hvu : v = u := List.inj_on_of_nodup_map hwf.2.1 hv humem hvid
              rw [if_pos hvid] at hveq
              rw [hveq, hvu]
              refine ⟨rfl, rfl, ?_, fun _ => ?_⟩
              · simp [sumAmountsFor]
              · have hle := le_of_not_lt h2
                simp only
                linarith
            · rw [if_neg hvid] at hveq
              have htgne : u.telegram_id ≠ v.telegram_id := by
                intro hcontra
                exact hvid (congrArg User.id
                  (List.inj_on_of_nodup_map hwf.2.2 hv humem hcontra.symm))
              rw [hveq]
              refine ⟨rfl, rfl, ?_, fun h => h⟩
              simp [sumAmountsFor, htgne]

theorem nonneg_of_map_balance {db db' : DB}
    (h : db'.users.map User.balance = db.users.map User.balance)
    (hnn : balancesNonneg db) : balancesNonneg db' := by
  intro v hv
  have hmem : v.balance ∈ db.users.map User.balance := by
    rw [← h]
    exact List.mem_map_of_mem _ hv
  obtain ⟨w, hw, hweq⟩ := List.mem_map.mp hmem
  rw [← hweq]
  exact hnn w hw

theorem set_wallet_step_spec (db : DB) (tg : Int) (address : String) :
    ((set_wallet_address db tg address).2.users.map User.id = db.users.map User.id ∧
      (set_wallet_address db tg address).2.users.map User.telegram_id
        = db.users.map User.telegram_id ∧
      (set_wallet_address db tg address).2.users.map User.balance
        = db.users.map User.balance) ∧
    (set_wallet_address db tg address).2.next_user_id = db.next_user_id ∧
    (set_wallet_address db tg address).2.withdrawals = db.withdrawals := by
  unfold set_wallet_address
  split
  · exact ⟨⟨rfl, rfl, rfl⟩, rfl, rfl⟩
  · split
    · exact ⟨⟨rfl, rfl, rfl⟩, rfl, rfl⟩
    · refine ⟨⟨?_, ?_, ?_⟩, rfl, rfl⟩ <;>
        exact map_updateByPk _ _ _ _ (fun v => rfl)

theorem applyReferral_spec (db1 : DB) (user : User) (code : String)
    (hwf1 : WF db1) (hnn1 : balancesNonneg db1) :
    WF (applyReferral db1 user code) ∧
    balancesNonneg (applyReferral db1 user code) ∧
    (applyReferral db1 user code).withdrawals = db1.withdrawals := by
  unfold applyReferral
  split
  · split
    · rename_i referrer hfindc
      split
      · refine ⟨?_, ?_, rfl⟩
        · refine WF_of_maps hwf1 ?_ ?_ rfl <;>
            (refine map_updateByPk2 _ _ _ _ _ _ ?_ ?_ <;> exact fun v => rfl)
        · intro v' hv'
          obtain ⟨m, hm, hveq⟩ := mem_updateByPk hv'
          obtain ⟨v, hv, hmeq⟩ := mem_updateByPk hm
          have hb1 : m.balance = v.balance := by
            rw [hmeq]
            split <;> rfl
          have h0 : 0 ≤ v.balance := hnn1 v hv
          rw [hveq]
          by_cases hc : m.id = referrer.id
          · rw [if_pos hc]
            simp only
            rw [hb1]
            unfold REFERRAL_BONUS
            linarith
          · rw [if_neg hc, hb1]
            exact h0
      · exact ⟨hwf1, hnn1, rfl⟩
    · exact ⟨hwf1, hnn1, rfl⟩
  · exact ⟨hwf1, hnn1, rfl⟩

theorem start_step_spec (db : DB) (tg : Int) (ud : UserData) (args : List String)
    (c : String) (now : Int) (hwf : WF db) (hnn : balancesNonneg db) :
    WF (start db tg ud args c now) ∧ balancesNonneg (start db tg ud args c now) ∧
    (start db tg ud args c now).withdrawals = db.withdrawals := by
  have hwf1 := WF_get_or_create db tg ud c now hwf
  have hnn1 := nonneg_get_or_create db tg ud c now hnn
  have hfr := (get_or_create_user_frame db tg ud c now).1
  cases args with
  | nil => exact ⟨hwf1, hnn1, hfr⟩
  | cons code rest =>
    obtain ⟨h1, h2, h3⟩ :=
      applyReferral_spec (get_or_create_user db tg ud c now).2
        (get_or_create_user db tg ud c now).1 code hwf1 hnn1
    exact ⟨h1, h2, h3.trans hfr⟩

theorem update_withdrawal_users (db : DB) (req_id : Int) (s : String) :
    (update_withdrawal db req_id s).2.users = db.users ∧
    (update_withdrawal db req_id s).2.next_user_id = db.next_user_id := by
  unfold update_withdrawal
  split
  · exact ⟨rfl, rfl⟩
  · split <;> exact ⟨rfl, rfl⟩

theorem step_preserves (db : DB) (op : Op) (hwf : WF db) (hnn : balancesNonneg db) :
    WF (step db op) ∧ balancesNonneg (step db op) := by
  cases op with
  | opEnsure tg ud c now =>
    exact ⟨WF_get_or_create db tg ud c now hwf, nonneg_get_or_create db tg ud c now hnn⟩
  | opStart tg ud args c now =>
    obtain ⟨h1, h2, _⟩ := start_step_spec db tg ud args c now hwf hnn
    exact ⟨h1, h2⟩
  | opSetWallet tg address =>
    obtain ⟨⟨hid, htg, hbal⟩, hnext, _⟩ := set_wallet_step_spec db tg address
    exact ⟨WF_of_maps hwf hid htg hnext, nonneg_of_map_balance hbal hnn⟩
  | opWithdraw tg a now =>
    obtain ⟨h1, _, A, _, hmem⟩ := withdraw_step_spec db tg a now hwf
    refine ⟨h1, ?_⟩
    intro v' hv'
    obtain ⟨v, hv, _, _, _, himp⟩ := hmem v' hv'
    exact himp (hnn v hv)
  | opAdmin i s =>
    obtain ⟨hu, hn⟩ := update_withdrawal_users db i s
    have hu' : (step db (Op.opAdmin i s)).users = db.users := hu
    have hn' : (step db (Op.opAdmin i s)).next_user_id = db.next_user_id := hn
    refine ⟨WF_of_maps hwf (by rw [hu']) (by rw [hu']) hn', ?_⟩
    intro v hv
    rw [hu'] at hv
    exact hnn v hv

theorem run_preserves (ops : List Op) (db : DB) (hwf : WF db) (hnn : balancesNonneg db) :
    WF (run db ops) ∧ balancesNonneg (run db ops) := by
  induction ops generalizing db with
  | nil => exact ⟨hwf, hnn⟩
  | cons op ops ih =>
    obtain ⟨h1, h2⟩ := step_preserves db op hwf hnn
    exact ih (step db op) h1 h2

theorem runW_nil (db : DB) : runW db [] = db := rfl

theorem runW_cons (db : DB) (r : WReq) (rs : List WReq) :
    runW db (r :: rs) = runW (withdraw_amount_handler db r.tg r.amount r.now).2 rs := rfl

theorem runW_spec (reqs : List WReq) (db : DB) (hwf : WF db) :
    WF (runW db reqs) ∧
    ∃ A : List WithdrawalRequest,
      (runW db reqs).withdrawals = db.withdrawals ++ A ∧
      ∀ v' ∈ (runW db reqs).users, ∃ v ∈ db.users,
        v'.id = v.id ∧ v'.telegram_id = v.telegram_id ∧
        v'.balance = v.balance - sumAmountsFor A v.telegram_id := by
  induction reqs generalizing db with
  | nil =>
    refine ⟨hwf, [], ?_, fun v' hv' => ⟨v', hv', rfl, rfl, by simp [sumAmountsFor]⟩⟩
    rw [runW_nil]
    simp
  | cons r rs ih =>
    obtain ⟨hwf1, _, A1, hw1, hm1⟩ := withdraw_step_spec db r.tg r.amount r.now hwf
    obtain ⟨hwf2, A2, hw2, hm2⟩ :=
      ih (withdraw_amount_handler db r.tg r.amount r.now).2 hwf1
    rw [runW_cons]
    refine ⟨hwf2, A1 ++ A2, ?_, ?_⟩
    · rw [hw2, hw1, List.append_assoc]
    · intro v'' hv''
      obtain ⟨v', hv', hid2, htg2, hbal2⟩ := hm2 v'' hv''
      obtain ⟨v, hv, hid1, htg1, hbal1, _⟩ := hm1 v' hv'
      refine ⟨v, hv, hid2.trans hid1, htg2.trans htg1, ?_⟩
      rw [hbal2, hbal1, htg1, sumAmountsFor_append]
      ring

/-! ### Claims -/

/-- C1: starting from any well-formed store with non-negative balances
(a fresh account starts at 0), every sequence of operations — account
creation, referral attribution, wallet updates, withdrawal requests,
admin status updates — keeps every account's balance non-negative; for
sequences of withdrawal requests, the requests admitted during the run
are exactly appended to the table and each account's final balance is
its initial balance minus the total amount of admitted requests
attributed to it; and a withdrawal mutates the request table only when
the amount passed both the minimum check and the balance check against
the debited account. -/
theorem C1_ledger_balance_invariant (db : DB) (hwf : WF db) (hnn : balancesNonneg db) :
    (∀ ops : List Op, balancesNonneg (run db ops)) ∧
    (∀ reqs : List WReq, ∃ A : List WithdrawalRequest,
        (runW db reqs).withdrawals = db.withdrawals ++ A ∧
        ∀ v' ∈ (runW db reqs).users, ∃ v ∈ db.users,
          v'.id = v.id ∧ v'.telegram_id = v.telegram_id ∧
          v'.balance = v.balance - sumAmountsFor A v.telegram_id) ∧
    (∀ tg a now,
        (withdraw_amount_handler db tg a now).2.withdrawals ≠ db.withdrawals →
        ∃ u, findUserByPk db tg = some u ∧ MIN_WITHDRAWAL ≤ a ∧ a ≤ u.balance) := by
  refine ⟨fun ops => (run_preserves ops db hwf hnn).2,
    fun reqs => (runW_spec reqs db hwf).2, ?_⟩
  intro tg a now hch
  unfold withdraw_amount_handler at hch
  split at hch
  · exact absurd rfl hch
  · rename_i h1
    split at hch
    · exact absurd rfl hch
    · rename_i u hfind
      split at hch
      · exact absurd rfl hch
      · rename_i h2
        split at hch
        · exact absurd rfl hch
        · exact ⟨u, hfind, le_of_not_lt h1, le_of_not_lt h2⟩

/-- C4: evaluation of the runtime behavior at every input. Every
`/start` raises `NameError`: the `get_or_create_user` call evaluates
the never-imported name `select` before the referral block is reached,
and the referral lookup at src/main.py:144 calls `select` as well, so
referral attribution and bonus crediting can never execute — no
referrer is ever credited and `referred_by` is never set,
contradicting the claimed exactly-one credit (the written guard logic
is what the claim and spec describe, making the missing import a
slip). -/
theorem C4_referral_never_executes (db : DB) (tg : Int) (ud : UserData)
    (args : List String) :
    start_runtime db tg ud args = PyOutcome.raised "select" ∧
    ∀ db1 : DB, start_runtime db tg ud args ≠ PyOutcome.ok db1 :=
  ⟨rfl, fun db1 h => PyOutcome.noConfusion h⟩

/-- C1 witness: the invariant theorem applied to a concrete one-account
store running one withdrawal. -/
theorem C1_ledger_balance_invariant_witness :
    balancesNonneg (run ⟨[⟨1, 5, none, none, none, 7, "rc", none, 0, 0⟩], 2, [], 1⟩
      [Op.opWithdraw 5 100 0]) :=
  (C1_ledger_balance_invariant ⟨[⟨1, 5, none, none, none, 7, "rc", none, 0, 0⟩], 2, [], 1⟩
    (by decide) (by decide)).1 [Op.opWithdraw 5 100 0]

/-- C5 counterexample: the string `0x` + 40 hex characters + a trailing
newline is accepted by the code's `re.match(r"^0x[a-fA-F0-9]{40}$", s)`
check — Python's `$` (without `re.MULTILINE`) also matches just before a
newline that ends the string — and is even persisted as a wallet, yet it
is not `0x` followed by exactly 40 hex characters, refuting the claimed
"if and only if". -/
theorem C5_wallet_newline_counterexample :
    wallet_regex_ok "0x0000000000000000000000000000000000000000\n" = true ∧
    specWalletFormat "0x0000000000000000000000000000000000000000\n" = false ∧
    (set_wallet_address ⟨[⟨5, 5, none, none, none, 0, "r", none, 0, 0⟩], 6, [], 1⟩
        5 "0x0000000000000000000000000000000000000000\n").1 = SetWalletResult.ok := by
  decide

/-- C5 amended: the wallet validator accepts a string exactly when it is
`0x` followed by exactly 40 hex characters, or such a string followed by
one trailing newline (an artifact of Python's `$`); every string the
validator rejects is rejected with no change to the stored state. -/
theorem C5_amended_wallet_validation (s : String) (db : DB) (tg : Int) :
    (wallet_regex_ok s = true ↔
      (specWalletFormat s = true ∨
        (s.data.getLast? = some '\n' ∧
          specWalletFormat (String.mk s.data.dropLast) = true))) ∧
    (wallet_regex_ok s = false →
      set_wallet_address db tg s = (SetWalletResult.invalid, db)) := by
  constructor
  · rw [specWalletFormat_eq_core, specWalletFormat_mk]
    unfold wallet_regex_ok
    simp [Bool.or_eq_true, Bool.and_eq_true, beq_iff_eq]
  · intro h
    unfold set_wallet_address
    rw [h]
    rfl

/-- C5 witness: a malformed address is rejected with the store intact,
by the amended theorem. -/
theorem C5_amended_wallet_validation_witness :
    set_wallet_address ⟨[⟨5, 5, none, none, none, 0, "r", none, 0, 0⟩], 6, [], 1⟩ 5 "nope"
      = (SetWalletResult.invalid,
          ⟨[⟨5, 5, none, none, none, 0, "r", none, 0, 0⟩], 6, [], 1⟩) :=
  (C5_amended_wallet_validation "nope"
      ⟨[⟨5, 5, none, none, none, 0, "r", none, 0, 0⟩], 6, [], 1⟩ 5).2 (by decide)

/-- C10: `get_api_key` grants access exactly when the presented
`X-API-KEY` header value equals the configured admin key and raises
HTTP 403 otherwise; with no admin key configured (`None`), a request
presenting no header at all (`None`) is granted, since the two missing
values compare equal. -/
theorem C10_get_api_key_equality_gate (cfg hdr : Option String) :
    (granted (get_api_key cfg hdr) = true ↔ hdr = cfg) ∧
    (get_api_key cfg hdr = if hdr = cfg then .ok hdr else .error 403) ∧
    get_api_key none none = .ok none := by
  refine ⟨?_, ?_, rfl⟩
  · unfold get_api_key granted
    rcases h : hdr == cfg with _ | _
    · simp only [Bool.false_eq_true, if_false]
      simp only [beq_eq_false_iff_ne, ne_eq] at h
      simp [h]
    · simp only [if_true]
      simp only [beq_iff_eq] at h
      simp [h]
  · unfold get_api_key
    rcases h : hdr == cfg with _ | _
    · simp only [beq_eq_false_iff_ne, ne_eq] at h
      simp [h]
    · simp only [beq_iff_eq] at h
      simp [h]

/-- C9: evaluation of the runtime behavior at every input. Because
`main.py` never brings `select` into scope, `get_or_create_user`
raises `NameError` on every call — it never returns an account, on the
first call or the second, so the claimed idempotent ensure-account
behavior is unobservable (the written lookup-or-insert logic it guards
is what the claim and spec describe, making the missing import a
slip). -/
theorem C9_get_or_create_user_raises (db : DB) (tg : Int) (ud : UserData) :
    get_or_create_user_runtime db tg ud = PyOutcome.raised "select" ∧
    ∀ p : User × DB, get_or_create_user_runtime db tg ud ≠ PyOutcome.ok p :=
  ⟨rfl, fun p h => PyOutcome.noConfusion h⟩

/-- C2 counterexample: a request already in the terminal status `PAID`
is then updated to `REJECTED`; the admin update returns success and the
stored status changes, where the claim demands an `InvalidTransition`
failure leaving the status unchanged. -/
theorem C2_terminal_update_succeeds_counterexample :
    (update_withdrawal
        ⟨[], 1, [⟨1, 7, 100, "0xaaaaaaaaaaaaaaaaaaaaaaaaaaaaaaaaaaaaaaaa", "PAID", 0⟩], 2⟩
        1 "REJECTED").1 = AdminResult.success ∧
    ((update_withdrawal
        ⟨[], 1, [⟨1, 7, 100, "0xaaaaaaaaaaaaaaaaaaaaaaaaaaaaaaaaaaaaaaaa", "PAID", 0⟩], 2⟩
        1 "REJECTED").2.withdrawals.map WithdrawalRequest.status) = ["REJECTED"] := by
  decide

/-- C2 amended: the admin status update performs no terminal-state
check: for every stored request id and new status in {PAID, REJECTED},
the update succeeds and overwrites the stored status regardless of the
current status, so repeated updates (including PAID → REJECTED and back)
all succeed; only an unknown id fails (404), and there is no
`InvalidTransition` error. -/
theorem C2_amended_admin_update_always_overwrites (db : DB) (req_id : Int) (s : String)
    (hs : s = "PAID" ∨ s = "REJECTED")
    (hex : ∃ w ∈ db.withdrawals, (w.id : Int) = req_id) :
    (update_withdrawal db req_id s).1 = AdminResult.success ∧
    ∀ w' ∈ (update_withdrawal db req_id s).2.withdrawals,
      (w'.id : Int) = req_id → w'.status = s := by
  have hcond : (!((s == "PAID") || (s == "REJECTED"))) = false := by
    rcases hs with h | h <;> subst h <;> rfl
  obtain ⟨w, hw, hwid⟩ := hex
  cases hfind : db.withdrawals.find? (fun w => (w.id : Int) == req_id) with
  | none =>
    rw [List.find?_eq_none] at hfind
    exact absurd (by simpa using hwid) (hfind w hw)
  | some w0 =>
    unfold update_withdrawal
    rw [hcond]
    simp only [Bool.false_eq_true, if_false, hfind]
    refine ⟨by trivial, ?_⟩
    intro w' hw' hid'
    simp only [List.mem_map] at hw'
    obtain ⟨w1, _, hmap⟩ := hw'
    by_cases h1 : (w1.id : Int) = req_id
    · simp only [h1, beq_self_eq_true, if_true] at hmap
      rw [← hmap]
    · simp only [beq_eq_false_iff_ne, ne_eq] at h1 ⊢
      rw [if_neg (by simpa using h1)] at hmap
      subst hmap
      exact absurd hid' h1

/-- C2 witness: a concrete PENDING request is set to PAID through the
amended theorem, with both hypotheses discharged by evaluation. -/
theorem C2_amended_admin_update_always_overwrites_witness :
    (update_withdrawal
        ⟨[], 1, [⟨1, 7, 100, "0xaaaaaaaaaaaaaaaaaaaaaaaaaaaaaaaaaaaaaaaa", "PENDING", 0⟩], 2⟩
        1 "PAID").1 = AdminResult.success ∧
    ∀ w' ∈ (update_withdrawal
        ⟨[], 1, [⟨1, 7, 100, "0xaaaaaaaaaaaaaaaaaaaaaaaaaaaaaaaaaaaaaaaa", "PENDING", 0⟩], 2⟩
        1 "PAID").2.withdrawals, (w'.id : Int) = 1 → w'.status = "PAID" :=
  C2_amended_admin_update_always_overwrites _ 1 "PAID" (Or.inl rfl)
    ⟨⟨1, 7, 100, "0xaaaaaaaaaaaaaaaaaaaaaaaaaaaaaaaaaaaaaaaa", "PENDING", 0⟩,
      by simp, by decide⟩

/-- C8: an admitted admin status update (new status PAID or REJECTED)
changes only the matching request's `status` field: its amount, wallet
snapshot, owning account id and creation time are untouched, all other
requests are untouched, and the `users` table — in particular every
balance — is untouched, so nothing is refunded on REJECTED. -/
theorem C8_admin_update_frame (db : DB) (req_id : Int) (s : String)
    (hs : s = "PAID" ∨ s = "REJECTED") :
    (update_withdrawal db req_id s).2.users = db.users ∧
    (update_withdrawal db req_id s).2.next_user_id = db.next_user_id ∧
    (update_withdrawal db req_id s).2.next_wd_id = db.next_wd_id ∧
    (update_withdrawal db req_id s).2.withdrawals.length = db.withdrawals.length ∧
    ∀ k (hk : k < db.withdrawals.length)
        (hk' : k < (update_withdrawal db req_id s).2.withdrawals.length),
      (((db.withdrawals[k].id : Int) ≠ req_id →
          (update_withdrawal db req_id s).2.withdrawals[k] = db.withdrawals[k]) ∧
       ((db.withdrawals[k].id : Int) = req_id →
          (update_withdrawal db req_id s).2.withdrawals[k]
            = { db.withdrawals[k] with status := s })) := by
  have hcond : (!((s == "PAID") || (s == "REJECTED"))) = false := by
    rcases hs with h | h <;> subst h <;> rfl
  unfold update_withdrawal
  rw [hcond]
  simp only [Bool.false_eq_true, if_false]
  cases hfind : db.withdrawals.find? (fun w => (w.id : Int) == req_id) with
  | none =>
    refine ⟨rfl, rfl, rfl, rfl, ?_⟩
    intro k hk hk'
    refine ⟨fun _ => rfl, fun heq => ?_⟩
    rw [List.find?_eq_none] at hfind
    exact absurd (by simpa using heq) (hfind _ (db.withdrawals.getElem_mem hk))
  | some w0 =>
    refine ⟨rfl, rfl, rfl, by simp, ?_⟩
    intro k hk hk'
    constructor
    · intro hne
      simp only [List.getElem_map]
      rw [if_neg (by simpa using hne)]
    · intro heq
      simp only [List.getElem_map]
      rw [if_pos (by simpa using heq)]

/-- C8 witness: the frame theorem applied to a concrete store with one
PENDING request set to REJECTED. -/
theorem C8_admin_update_frame_witness :
    (update_withdrawal
        ⟨[⟨1, 7, none, none, none, 25, "r", none, 0, 0⟩], 2,
          [⟨1, 7, 100, "0xaaaaaaaaaaaaaaaaaaaaaaaaaaaaaaaaaaaaaaaa", "PENDING", 0⟩], 2⟩
        1 "REJECTED").2.users
      = [⟨1, 7, none, none, none, 25, "r", none, 0, 0⟩] :=
  (C8_admin_update_frame
      ⟨[⟨1, 7, none, none, none, 25, "r", none, 0, 0⟩], 2,
        [⟨1, 7, 100, "0xaaaaaaaaaaaaaaaaaaaaaaaaaaaaaaaaaaaaaaaa", "PENDING", 0⟩], 2⟩
      1 "REJECTED" (Or.inr rfl)).1

/-- C6: evaluation at the failing input. One account exists (row id 1,
telegram id 555, no wallet); identity 555 submits a correctly formatted
address. The handler's `session.get(User, 555)` looks up primary key
555, misses, and the handler crashes with nothing persisted — the
submitted address never reaches the identity's account, contradicting
the claim that a valid address is persisted to that account. -/
theorem C6_set_wallet_lookup_bug_eval :
    set_wallet_address
        ⟨[⟨1, 555, none, none, none, 0, "r", none, 0, 0⟩], 2, [], 1⟩
        555 "0x00000000000000000000000000000000000000aa"
      = (SetWalletResult.crashed,
          ⟨[⟨1, 555, none, none, none, 0, "r", none, 0, 0⟩], 2, [], 1⟩) ∧
    specWalletFormat "0x00000000000000000000000000000000000000aa" = true := by
  decide

/-- C3: evaluation at the failing input. The identity's account (row
id 1, telegram id 555) has a wallet and balance 150; the identity
requests the minimum withdrawal of 100, which the claim says must
succeed and leave balance 50 with a PENDING request. The handler's
`session.get(User, 555, with_for_update=True)` looks up primary key
555, misses, and the handler crashes at the balance comparison: no
debit, no request row. -/
theorem C3_withdraw_lookup_bug_eval :
    withdraw_amount_handler
        ⟨[⟨1, 555, none, none, some "0x00000000000000000000000000000000000000aa",
            150, "r", none, 0, 0⟩], 2, [], 1⟩
        555 100 0
      = (WithdrawResult.crashed,
          ⟨[⟨1, 555, none, none, some "0x00000000000000000000000000000000000000aa",
              150, "r", none, 0, 0⟩], 2, [], 1⟩) := by
  decide

/-- C7: evaluation at the failing input. The requesting identity
(telegram id 1) owns the account at row id 2 with balance 50 and asks
for 100, which the claim says must fail with `InsufficientBalance` and
change nothing. `session.get(User, 1)` instead fetches the unrelated
row with primary key 1 (telegram id 1000, balance 1000): the request is
admitted, that other account is debited to 900, and a request row
attributed to telegram id 1000 is inserted. -/
theorem C7_insufficient_balance_lookup_bug_eval :
    (withdraw_amount_handler
        ⟨[⟨1, 1000, none, none, some "0x00000000000000000000000000000000000000aa",
            1000, "rA", none, 0, 0⟩,
          ⟨2, 1, none, none, some "0x00000000000000000000000000000000000000bb",
            50, "rB", none, 0, 0⟩], 3, [], 1⟩
        1 100 0).1 = WithdrawResult.ok ∧
    ((withdraw_amount_handler
        ⟨[⟨1, 1000, none, none, some "0x00000000000000000000000000000000000000aa",
            1000, "rA", none, 0, 0⟩,
          ⟨2, 1, none, none, some "0x00000000000000000000000000000000000000bb",
            50, "rB", none, 0, 0⟩], 3, [], 1⟩
        1 100 0).2.users.map User.balance) = [900, 50] ∧
    ((withdraw_amount_handler
        ⟨[⟨1, 1000, none, none, some "0x00000000000000000000000000000000000000aa",
            1000, "rA", none, 0, 0⟩,
          ⟨2, 1, none, none, some "0x00000000000000000000000000000000000000bb",
            50, "rB", none, 0, 0⟩], 3, [], 1⟩
        1 100 0).2.withdrawals.map WithdrawalRequest.user_id) = [1000] := by
  refine ⟨?_, ?_, ?_⟩ <;>
    norm_num [withdraw_amount_handler, findUserByPk, updateByPk, MIN_WITHDRAWAL,
      List.find?]

end Airdrop
